import Mathlib

/-!
Shallow embedding of the core of tarunerror/debugtutor:
the multi-language static code checker (src/parser.py, class CodeParser)
and the LLM request orchestration layer (src/llm_utils.py, class LLMProcessor).

Python strings are embedded as `List Char`; language identifiers and
diagnostic messages are Lean `String`s.  Machine-level concerns (HTTP,
JSON decoding, the CPython `ast` module) are external collaborators of the
embedded code and are modelled as explicit oracle parameters, exactly at
the call boundary where the source invokes them.
-/

namespace DebugTutor

/-- Character constants written via code points so that brace and backquote
characters never appear literally in the file. -/
def lbrace : Char := Char.ofNat 123

def rbrace : Char := Char.ofNat 125

def backquote : Char := Char.ofNat 96

def singleQuote : Char := Char.ofNat 39

/-- One reported issue.  Mirrors the diagnostic dictionaries built in
src/parser.py: every diagnostic carries 'line' and 'message'; 'column' is
present only on the python SyntaxError path; 'type' (the kind tag) is present
on every diagnostic except the unsupported-language and top-level
parser-error ones, which omit the key (modelled as `none`). -/
structure Diagnostic where
  line : Nat
  column : Option Nat
  message : String
  type : Option String
deriving Repr, DecidableEq

/-- The dictionary returned by CodeParser.parse_code and the per-language
routines.  `ast` is the opaque parsed-program handle (python only);
`includes` is the extra key produced only by the cpp routine (empty
elsewhere). -/
structure AnalysisResult where
  syntax_errors : List Diagnostic
  warnings : List Diagnostic
  ast : Option Unit
  language : String
  line_count : Nat
  includes : List (List Char) := []
deriving Repr, DecidableEq

/-- Python `s.split(sep)` for a single-character separator (as used with
'\n' and ' ' in the source): always returns at least one piece. -/
def splitOnChar (sep : Char) : List Char → List (List Char)
  | [] => [[]]
  | c :: rest =>
    match splitOnChar sep rest with
    | [] => [[]]
    | l :: ls => if c = sep then [] :: l :: ls else (c :: l) :: ls

/-- `code.split('\n')` as used throughout src/parser.py. -/
def splitLines (code : List Char) : List (List Char) :=
  splitOnChar '\n' code

/-- Python whitespace as tested by `str.strip()` / the regex class `\s`. -/
def pyWsChar (c : Char) : Bool :=
  c = ' ' || c = '\t' || c = '\n' || c = '\x0b' || c = '\x0c' || c = '\r'

/-- Python `str.strip()`. -/
def trimChars (l : List Char) : List Char :=
  ((l.dropWhile pyWsChar).reverse.dropWhile pyWsChar).reverse

/-- Python `s.lower()` (`language.lower()` in parse_code): character-wise
ASCII lowercasing. -/
def pyLower (s : String) : String := ⟨s.data.map Char.toLower⟩

/-- Python `pat in s` (substring containment). -/
def subIn (pat : List Char) : List Char → Bool
  | [] => pat.isEmpty
  | c :: rest => pat.isPrefixOf (c :: rest) || subIn pat rest

/-- Python `s.startswith(p)` for each member of a tuple argument. -/
def startsWithAny (l : List Char) (pats : List (List Char)) : Bool :=
  pats.any fun p => p.isPrefixOf l

/-- Python `s.endswith(tuple-of-single-chars)`: the last character is one of
the given characters. -/
def endsWithAnyChar (l : List Char) (cs : List Char) : Bool :=
  match l.getLast? with
  | some c => cs.contains c
  | none => false

/-! ### JavaScript / TypeScript scanner (CodeParser._parse_javascript) -/

/-- Mutable loop state of the character scan in _parse_javascript:
three nesting counters plus the string-literal toggle. -/
structure JsScanState where
  brace : Int
  paren : Int
  bracket : Int
  inString : Bool
  stringChar : Option Char
deriving Repr, DecidableEq

def initJsState : JsScanState :=
  { brace := 0, paren := 0, bracket := 0, inString := false, stringChar := none }

/-- One iteration of the inner character loop of _parse_javascript.
`prev` is `line[j-1]` (`none` at `j == 0`); the escape test of the source is
literally `char == string_char and (j == 0 or line[j-1] != '\\')`. -/
def jsCharStep (s : JsScanState) (prev : Option Char) (c : Char) : JsScanState :=
  if s.inString = false then
    if c = '"' ∨ c = singleQuote ∨ c = backquote then
      { s with inString := true, stringChar := some c }
    else if c = lbrace then { s with brace := s.brace + 1 }
    else if c = rbrace then { s with brace := s.brace - 1 }
    else if c = '(' then { s with paren := s.paren + 1 }
    else if c = ')' then { s with paren := s.paren - 1 }
    else if c = '[' then { s with bracket := s.bracket + 1 }
    else if c = ']' then { s with bracket := s.bracket - 1 }
    else s
  else
    if s.stringChar = some c ∧ (prev = none ∨ prev ≠ some '\\') then
      { s with inString := false, stringChar := none }
    else s

def jsScanLineAux (s : JsScanState) (prev : Option Char) : List Char → JsScanState
  | [] => s
  | c :: rest => jsScanLineAux (jsCharStep s prev c) (some c) rest

/-- Scan of one line; the previous-character tracker restarts at each line
(`j` is the index within the line) while the counters and string state
carry over between lines, as in the source. -/
def jsScanLine (s : JsScanState) (line : List Char) : JsScanState :=
  jsScanLineAux s none line

def jsScanAll (s : JsScanState) (lines : List (List Char)) : JsScanState :=
  lines.foldl jsScanLine s

/-- Per-line missing-semicolon heuristic of _parse_javascript
(`i` is the 1-based line number from `enumerate(lines, 1)`). -/
def jsLineWarning (i : Nat) (line : List Char) : List Diagnostic :=
  let ls := trimChars line
  if ls ≠ [] ∧
      endsWithAnyChar ls [';', lbrace, rbrace, ')', ','] = false ∧
      startsWithAny ls
        (["if", "for", "while", "function", "class", "//", "/*"].map
          String.toList) = false ∧
      '=' ∈ ls then
    [⟨i, none, "Consider adding semicolon at end of statement",
      some "MissingSemicolon"⟩]
  else []

/-- `enumerate(lines, 1)` driving a per-line diagnostic emitter; the emitted
sub-lists are concatenated in line order, as the source's `append` calls do. -/
def perLine (f : Nat → List Char → List Diagnostic)
    (lines : List (List Char)) : List Diagnostic :=
  (lines.enum.map fun p => f (p.1 + 1) p.2).flatten

/-- CodeParser._parse_javascript.  The character scan (bracket counters and
string state) and the per-line warning heuristic are independent passes over
the same lines; the source interleaves them in one loop with identical
observable output. -/
def parse_javascript (code : List Char) : AnalysisResult :=
  let lines := splitLines code
  let st := jsScanAll initJsState lines
  let warnings := perLine jsLineWarning lines
  let errs :=
    (if st.brace ≠ 0 then
      [⟨lines.length, none,
        "Unmatched braces: " ++ toString st.brace ++ " extra " ++
          (if st.brace > 0 then "opening" else "closing"),
        some "UnmatchedBraces"⟩]
    else []) ++
    (if st.paren ≠ 0 then
      [⟨lines.length, none,
        "Unmatched parentheses: " ++ toString st.paren ++ " extra " ++
          (if st.paren > 0 then "opening" else "closing"),
        some "UnmatchedParentheses"⟩]
    else []) ++
    (if st.bracket ≠ 0 then
      [⟨lines.length, none,
        "Unmatched brackets: " ++ toString st.bracket ++ " extra " ++
          (if st.bracket > 0 then "opening" else "closing"),
        some "UnmatchedBrackets"⟩]
    else [])
  { syntax_errors := errs, warnings := warnings, ast := none,
    language := "javascript", line_count := lines.length }

/-! ### Python checker (CodeParser._parse_python and helpers) -/

/-- Python `s.split(pat)[0]` for a non-empty separator string: the prefix of
`l` before the first occurrence of `pat`. -/
def takeBeforeSub (pat : List Char) : List Char → List Char
  | [] => []
  | c :: rest =>
    if pat ≠ [] ∧ pat.isPrefixOf (c :: rest) then []
    else c :: takeBeforeSub pat rest

def removeAllAux (pat : List Char) : Nat → List Char → List Char
  | _, [] => []
  | 0, l => l
  | fuel + 1, c :: rest =>
    if pat ≠ [] ∧ pat.isPrefixOf (c :: rest) then
      removeAllAux pat fuel ((c :: rest).drop pat.length)
    else c :: removeAllAux pat fuel rest

/-- Python `s.replace(pat, '')`: delete every non-overlapping occurrence of
`pat`, scanning left to right.  The fuel argument (initially the length of
the string) only serves termination; each step consumes at least one
character. -/
def removeAll (pat : List Char) (l : List Char) : List Char :=
  removeAllAux pat l.length l

/-- CodeParser._extract_import_name. -/
def extract_import_name (import_line : List Char) : Option (List Char) :=
  if ("import ".toList).isPrefixOf import_line then
    some (trimChars (takeBeforeSub (" as ".toList)
      (takeBeforeSub ['.'] (removeAll ("import ".toList) import_line))))
  else if ("from ".toList).isPrefixOf import_line then
    match splitOnChar ' ' import_line with
    | _ :: p1 :: _ => some (trimChars (takeBeforeSub ['.'] p1))
    | _ => none
  else none

/-- CodeParser._is_module_used: some line of the code contains the module
name as a substring and is not itself an import line. -/
def is_module_used (code m : List Char) : Bool :=
  (splitOnChar '\n' code).any fun line =>
    subIn m line &&
      !(("import ".toList).isPrefixOf (trimChars line) ||
        ("from ".toList).isPrefixOf (trimChars line))

/-- Word character of the regex class `\w` (ASCII range, as exercised by the
source's heuristics). -/
def wordChar (c : Char) : Bool := c.isAlphanum || c = '_'

def identStart (c : Char) : Bool := c.isAlpha || c = '_'

def wordRunsAux (cur : List Char) : List Char → List (List Char)
  | [] => if cur = [] then [] else [cur.reverse]
  | c :: rest =>
    if wordChar c then wordRunsAux (c :: cur) rest
    else if cur = [] then wordRunsAux [] rest
    else cur.reverse :: wordRunsAux [] rest

/-- Maximal runs of word characters in a line. -/
def wordRuns (l : List Char) : List (List Char) :=
  wordRunsAux [] l

/-- `re.findall(r'\b[a-zA-Z_][a-zA-Z0-9_]*\b', s)`: the maximal word-charac-
ter runs whose first character is a letter or underscore (a run starting
with a digit has no word boundary before its first letter). -/
def identRuns (l : List Char) : List (List Char) :=
  (wordRuns l).filter fun r =>
    match r with
    | [] => false
    | c :: _ => identStart c

/-- The builtin-name exclusion list of _check_undefined_variables. -/
def pyBuiltins : List (List Char) :=
  ["print", "len", "str", "int", "float", "list", "dict", "True", "False",
    "None"].map String.toList

/-- CodeParser._check_undefined_variables: names on the right side of the
first '=' that are not builtins and have no earlier `name =` occurrence in
the code before the first occurrence of this (stripped) line. -/
def check_undefined_variables (line code : List Char) : List (List Char) :=
  if '=' ∈ line then
    let right_side := trimChars ((line.dropWhile (· ≠ '=')).drop 1)
    ((identRuns right_side).filter fun v => v ∉ pyBuiltins).filter fun v =>
      !(subIn (v ++ (" =".toList)) (takeBeforeSub line code))
  else []

/-- `re.search(r'\bprint\s+[^(]', line)` specialised to this fixed pattern:
a word boundary, the literal `print`, at least one whitespace character, then
a character other than '('.  Because `[^(]` also matches whitespace, a match
exists at a position exactly when `print` is followed by one whitespace
character and any further character other than '('. -/
def printMatchHere (l : List Char) : Bool :=
  ("print".toList).isPrefixOf l &&
    match l.drop 5 with
    | w :: d :: _ => pyWsChar w && d ≠ '('
    | _ => false

def printSearchAux (prev : Option Char) : List Char → Bool
  | [] => false
  | c :: rest =>
    ((match prev with
      | none => true
      | some p => !wordChar p) && printMatchHere (c :: rest)) ||
      printSearchAux (some c) rest

def printNoParen (l : List Char) : Bool :=
  printSearchAux none l

/-- The body of the per-line loop of _check_python_warnings at 1-based line
`i`: unused-import warning, print-statement warning, undefined-variable
warnings, in source order. -/
def pyLineWarnings (code : List Char) (i : Nat) (line : List Char) :
    List Diagnostic :=
  let ls := trimChars line
  (if ("import ".toList).isPrefixOf ls ∨ ("from ".toList).isPrefixOf ls then
    match extract_import_name ls with
    | some m =>
      if m ≠ [] ∧ is_module_used code m = false then
        [⟨i, none, "Potentially unused import: " ++ m.asString,
          some "UnusedImport"⟩]
      else []
    | none => []
  else []) ++
  (if printNoParen ls then
    [⟨i, none, "Consider using print() with parentheses",
      some "PrintStatement"⟩]
  else []) ++
  (if '=' ∈ ls ∧ (['#'].isPrefixOf ls) = false then
    (check_undefined_variables ls code).map fun v =>
      ⟨i, none, "Potentially undefined variable: " ++ v.asString,
        some "UndefinedVariable"⟩
  else [])

/-- CodeParser._check_python_warnings.  The `ast_tree` argument of the
source is never inspected by the body and is dropped here. -/
def check_python_warnings (code : List Char) : List Diagnostic :=
  perLine (pyLineWarnings code) (splitLines code)

/-- Outcome of `ast.parse` (CPython standard library, external to the
repository): success, a SyntaxError with its optional lineno/offset/msg, or
any other exception.  Supplied to the checker as an oracle parameter. -/
inductive PyAstResult
  | ok
  | syntaxError (lineno : Option Nat) (offset : Option Nat)
      (msg : Option String)
  | otherError (msg : String)
deriving Repr, DecidableEq

/-- Python `x or default` for the optional ints of a SyntaxError: `None` and
`0` are falsy and replaced by the default `1`. -/
def pyOrOne : Option Nat → Nat
  | none => 1
  | some 0 => 1
  | some (n + 1) => n + 1

/-- Python `e.msg or 'Syntax error'`: `None` and the empty string are falsy. -/
def pyOrMsg (o : Option String) (dflt : String) : String :=
  match o with
  | none => dflt
  | some s => if s = "" then dflt else s

/-- CodeParser._parse_python, with the `ast.parse` call abstracted as the
`pyParse` oracle. -/
def parse_python (pyParse : List Char → PyAstResult) (code : List Char) :
    AnalysisResult :=
  match pyParse code with
  | .ok =>
    { syntax_errors := [], warnings := check_python_warnings code,
      ast := some (), language := "python",
      line_count := (splitLines code).length }
  | .syntaxError lineno offset msg =>
    { syntax_errors := [⟨pyOrOne lineno, some (pyOrOne offset),
        pyOrMsg msg "Syntax error", some "SyntaxError"⟩],
      warnings := [], ast := none, language := "python",
      line_count := (splitLines code).length }
  | .otherError msg =>
    { syntax_errors := [⟨1, none, "Parse error: " ++ msg,
        some "ParseError"⟩],
      warnings := [], ast := none, language := "python",
      line_count := (splitLines code).length }

/-! ### C++, Java, Go, Rust checkers -/

/-- Per-line missing-semicolon heuristic of _parse_cpp. -/
def cppLineWarning (i : Nat) (line : List Char) : List Diagnostic :=
  let ls := trimChars line
  if ls ≠ [] ∧
      endsWithAnyChar ls [';', lbrace, rbrace, ':', '#'] = false ∧
      startsWithAny ls
        (["if", "for", "while", "class", "//", "/*", "#"].map
          String.toList) = false ∧
      '=' ∈ ls then
    [⟨i, none, "Possible missing semicolon", some "MissingSemicolon"⟩]
  else []

/-- CodeParser._parse_cpp. -/
def parse_cpp (code : List Char) : AnalysisResult :=
  let lines := splitLines code
  let has_main := lines.any fun l =>
    subIn ("int main".toList) (trimChars l) ||
      subIn ("void main".toList) (trimChars l)
  let includes := (lines.map trimChars).filter fun ls =>
    ("#include".toList).isPrefixOf ls
  let warnings := perLine cppLineWarning lines ++
    (if has_main = false ∧ lines.length > 5 then
      [⟨1, none, "No main function found", some "NoMainFunction"⟩]
    else [])
  { syntax_errors := [], warnings := warnings, ast := none,
    language := "cpp", line_count := lines.length, includes := includes }

/-- Per-line missing-semicolon heuristic of _parse_java. -/
def javaLineWarning (i : Nat) (line : List Char) : List Diagnostic :=
  let ls := trimChars line
  if ls ≠ [] ∧
      endsWithAnyChar ls [';', lbrace, rbrace, ')', ':'] = false ∧
      startsWithAny ls
        (["if", "for", "while", "public", "private", "class", "//",
          "/*"].map String.toList) = false ∧
      ('=' ∈ ls ∨ subIn ("return".toList) ls) then
    [⟨i, none, "Possible missing semicolon", some "MissingSemicolon"⟩]
  else []

/-- CodeParser._parse_java.  The `has_main` flag of the source is computed
but never surfaced as a diagnostic, so it is omitted here. -/
def parse_java (code : List Char) : AnalysisResult :=
  let lines := splitLines code
  let has_class := lines.any fun l =>
    ("public class".toList).isPrefixOf (trimChars l) ||
      ("class".toList).isPrefixOf (trimChars l)
  let warnings := perLine javaLineWarning lines ++
    (if has_class = false ∧ lines.length > 3 then
      [⟨1, none, "No class declaration found", some "NoClass"⟩]
    else [])
  { syntax_errors := [], warnings := warnings, ast := none,
    language := "java", line_count := lines.length }

/-- CodeParser._parse_go.  `has_main` ('func main()' in a stripped line) is
tracked by the source but never used, so it is omitted here. -/
def parse_go (code : List Char) : AnalysisResult :=
  let lines := splitLines code
  let has_package := lines.any fun l =>
    ("package ".toList).isPrefixOf (trimChars l)
  { syntax_errors :=
      if has_package = false then
        [⟨1, none, "Missing package declaration", some "MissingPackage"⟩]
      else [],
    warnings := [], ast := none, language := "go",
    line_count := lines.length }

/-- CodeParser._parse_rust: the main-function flag is computed but no
diagnostic is ever emitted. -/
def parse_rust (code : List Char) : AnalysisResult :=
  let lines := splitLines code
  { syntax_errors := [], warnings := [], ast := none, language := "rust",
    line_count := lines.length }

/-! ### Top-level dispatch (CodeParser.parse_code) -/

/-- CodeParser.parse_code.  The source first short-circuits on
whitespace-only input, lowercases the language, rejects identifiers outside
the dispatch table, and otherwise dispatches; the membership test and the
table lookup are combined here into one conditional chain whose final branch
is the unsupported-language result.  The embedded per-language routines are
total, so the source's defensive `except Exception` wrapper around the
dispatch call has no reachable body and is not modelled. -/
def parse_code (pyParse : List Char → PyAstResult) (code : List Char)
    (language : String) : AnalysisResult :=
  if trimChars code = [] then
    { syntax_errors := [], warnings := [], ast := none,
      language := language, line_count := 0 }
  else
    let lang := pyLower language
    if lang = "python" then parse_python pyParse code
    else if lang = "javascript" ∨ lang = "typescript" then
      parse_javascript code
    else if lang = "cpp" then parse_cpp code
    else if lang = "java" then parse_java code
    else if lang = "go" then parse_go code
    else if lang = "rust" then parse_rust code
    else
      { syntax_errors := [⟨1, none, "Unsupported language: " ++ lang,
          none⟩],
        warnings := [], ast := none, language := lang,
        line_count := (splitLines code).length }

/-- The keys of the dispatch table built in CodeParser.__init__. -/
def supportedLanguageNames : List String :=
  ["python", "javascript", "typescript", "cpp", "java", "go", "rust"]

/-- A fixed `ast.parse` oracle that always succeeds, for concrete instances
whose language path never consults it. -/
def pyParseOk : List Char → PyAstResult := fun _ => .ok

/-! ### LLM request layer (src/llm_utils.py, class LLMProcessor) -/

/-- The parsed JSON envelope of a buffered completion response, as accessed
by `result['choices'][0]['message']['content']`: each level records whether
the corresponding key is present. -/
structure RespMessage where
  content : Option String
deriving Repr, DecidableEq

structure RespChoice where
  message : Option RespMessage
deriving Repr, DecidableEq

/-- One HTTP response: status code, the optional 'choices' key of the parsed
body, and the optional provider error message read on the non-2xx path
(`response.json().get('error', {}).get('message', '')`, with absence and
emptiness collapsed to `none`). -/
structure HttpResponse where
  status : Nat
  choices : Option (List RespChoice)
  errorDetail : Option String
deriving Repr, DecidableEq

/-- What one `requests.post` call does, supplied per attempt index by a
backend oracle: a response, a timeout, or another transport failure. -/
inductive AttemptResult
  | response (r : HttpResponse)
  | timeout
  | netError (msg : String)
deriving Repr, DecidableEq

/-- The distinct failure exits of LLMProcessor._make_api_request.
`configError` is the missing-credential ValueError; `invalidFormat` is
ValueError('Invalid response format from API'); `rateLimited` is
ValueError('Rate limit exceeded. Please try again later.'); `keyError` is
the uncaught KeyError raised when `result['choices'][0]` lacks the
'message' key or the message lacks 'content'; `retriesExhausted` is the
terminal ValueError('Failed to get response after multiple retries'). -/
inductive ApiError
  | configError
  | invalidFormat
  | rateLimited
  | requestFailed (status : Nat) (detail : Option String)
  | timeoutExceeded
  | networkError (msg : String)
  | keyError
  | retriesExhausted
deriving Repr, DecidableEq

inductive ApiOutcome
  | ok (s : String)
  | error (e : ApiError)
deriving Repr, DecidableEq

/-- Observable behaviour of one _make_api_request call: the returned payload
or the single raised failure, the sequence of `time.sleep` delays in order,
and the number of `requests.post` attempts performed. -/
structure ApiCallTrace where
  result : ApiOutcome
  sleeps : List Nat
  requests : Nat
deriving Repr, DecidableEq

/-- The retry loop `for attempt in range(max_retries)` of _make_api_request,
entered at index `attempt` with `remaining + ...` iterations left when the
second argument is positive.  `remaining > 0` is exactly the source's
`attempt < max_retries - 1` test ("is this not the last attempt?"), and
`2 ^ attempt` is the exponential backoff `time.sleep(2 ** attempt)`;
timeouts and transport errors sleep a fixed 1 unit.  Falling out of the
loop raises the terminal ValueError. -/
def apiGo (backend : Nat → AttemptResult) (attempt : Nat) :
    Nat → ApiCallTrace
  | 0 => ⟨.error .retriesExhausted, [], 0⟩
  | remaining + 1 =>
    match backend attempt with
    | .response r =>
      if r.status = 200 then
        match r.choices with
        | some (c :: _) =>
          match c.message with
          | some m =>
            match m.content with
            | some s => ⟨.ok s, [], 1⟩
            | none => ⟨.error .keyError, [], 1⟩
          | none => ⟨.error .keyError, [], 1⟩
        | _ => ⟨.error .invalidFormat, [], 1⟩
      else if r.status = 429 then
        if remaining > 0 then
          let rest := apiGo backend (attempt + 1) remaining
          ⟨rest.result, 2 ^ attempt :: rest.sleeps, rest.requests + 1⟩
        else ⟨.error .rateLimited, [], 1⟩
      else ⟨.error (.requestFailed r.status r.errorDetail), [], 1⟩
    | .timeout =>
      if remaining > 0 then
        let rest := apiGo backend (attempt + 1) remaining
        ⟨rest.result, 1 :: rest.sleeps, rest.requests + 1⟩
      else ⟨.error .timeoutExceeded, [], 1⟩
    | .netError msg =>
      if remaining > 0 then
        let rest := apiGo backend (attempt + 1) remaining
        ⟨rest.result, 1 :: rest.sleeps, rest.requests + 1⟩
      else ⟨.error (.networkError msg), [], 1⟩

/-- LLMProcessor._make_api_request in buffered mode (the payload fields and
the streaming flag do not influence the control flow modelled here).  A
missing credential fails before any request is made. -/
def make_api_request (backend : Nat → AttemptResult) (max_retries : Nat)
    (hasApiKey : Bool) : ApiCallTrace :=
  if hasApiKey then apiGo backend 0 max_retries
  else ⟨.error .configError, [], 0⟩

/-! ### Streaming consumption (LLMProcessor._make_streaming_request) -/

/-- The parsed JSON of one streaming frame, as accessed by
`json_data['choices'][0].get('delta', {})['content']` with presence checks:
each optional level records whether the key is present. -/
structure StreamDelta where
  content : Option String
deriving Repr, DecidableEq

structure StreamChoice where
  delta : Option StreamDelta
deriving Repr, DecidableEq

structure StreamFrame where
  choices : Option (List StreamChoice)
deriving Repr, DecidableEq

/-- The framing prefix `'data: '` tested by `line.startswith('data: ')`. -/
def dataMark : List Char := "data: ".toList

/-- The literal stream terminator `'[DONE]'`. -/
def doneMark : List Char := "[DONE]".toList

/-- What one iteration of the line loop of _make_streaming_request does with
one (already decoded) line: stop at the terminator, yield a content delta,
or silently skip (blank lines, non-data lines, frames that fail to parse,
and frames without a content delta).  `decode` is the `json.loads` oracle:
`none` models a raised JSONDecodeError. -/
inductive LineAction
  | stop
  | yieldFrag (s : String)
  | skip
deriving Repr, DecidableEq

def lineAction (decode : List Char → Option StreamFrame)
    (line : List Char) : LineAction :=
  if line = [] then .skip
  else if dataMark.isPrefixOf line then
    let dta := line.drop 6
    if dta = doneMark then .stop
    else
      match decode dta with
      | none => .skip
      | some f =>
        match f.choices with
        | some (c :: _) =>
          (match c.delta with
          | some d =>
            (match d.content with
            | some s => .yieldFrag s
            | none => .skip)
          | none => .skip)
        | _ => .skip
  else .skip

/-- LLMProcessor._make_streaming_request: the finite sequence of fragments
yielded for a response body given as a list of lines, in arrival order.
The `break` on the terminator ends the sequence. -/
def streamFragments (decode : List Char → Option StreamFrame) :
    List (List Char) → List String
  | [] => []
  | line :: rest =>
    match lineAction decode line with
    | .stop => []
    | .yieldFrag s => s :: streamFragments decode rest
    | .skip => streamFragments decode rest

/-! ### Follow-up prompt construction (LLMProcessor.process_follow_up) -/

/-- A role-tagged message, both for conversation turns handed in by the
caller and for the prompt messages sent to the backend. -/
structure ChatMessage where
  role : String
  content : String
deriving Repr, DecidableEq

/-- Python `l[-6:]` generalised: the last `n` elements (all of them when the
list is shorter). -/
def lastN (n : Nat) (l : List α) : List α :=
  l.drop (l.length - n)

/-- The `history_text` accumulation of process_follow_up: each of the last 6
turns rendered as `User: ...` or `DebugTutor: ...` with a blank line after. -/
def historyText (history : List ChatMessage) : String :=
  ((lastN 6 history).map fun msg =>
    (if msg.role = "user" then "User" else "DebugTutor") ++ ": " ++
      msg.content ++ "\n\n").foldl (· ++ ·) ""

/-- `self.follow_up_prompt.format(...)`: the template literal of
LLMProcessor.__init__ with its four placeholders substituted. -/
def follow_up_prompt_filled (conversation_history language code
    question : String) : String :=
  "You are DebugTutor, continuing a conversation about debugging code.\n\nCONVERSATION HISTORY:\n" ++
    conversation_history ++
    "\n\nCURRENT CODE:\n```" ++ language ++ "\n" ++ code ++
    "\n```\n\nUSER QUESTION: " ++ question ++
    "\n\nPlease answer the user's question in the context of the ongoing conversation. Be helpful, educational, and encouraging. Reference the code and previous discussion as needed."

/-- LLMProcessor.process_follow_up, up to the point where the built message
list is handed to _make_api_request: the function only reads the history
(its bounded `[-6:]` suffix) and builds the two prompt messages; the
hardcoded `language="python"` default of the source is kept. -/
def process_follow_up (question code : String)
    (conversation_history : List ChatMessage) : List ChatMessage :=
  let history_text := historyText conversation_history
  let prompt := follow_up_prompt_filled history_text "python" code question
  [⟨"system", "You are DebugTutor, continuing an educational conversation about debugging code."⟩,
    ⟨"user", prompt⟩]

/-! ### Derived accessors and concrete instances used in the theorems -/

/-- Every diagnostic of a result has a positive 1-based line number. -/
def linesPositive (r : AnalysisResult) : Prop :=
  ∀ d, d ∈ r.syntax_errors ∨ d ∈ r.warnings → 1 ≤ d.line

/-- The incremental content delta carried by a parsed streaming frame, if
any: `choices` present and non-empty, its head carrying a `delta` with a
`content` key. -/
def frameDelta (f : StreamFrame) : Option String :=
  match f.choices with
  | some (c :: _) =>
    (match c.delta with
    | some d => d.content
    | none => none)
  | _ => none

/-- The payload of the first synthetic stream frame: a choices list whose
head carries the content delta "ab" (brace characters written as hex
escapes in the literal). -/
def abPayload : List Char :=
  "\x7b\"choices\":[\x7b\"delta\":\x7b\"content\":\"ab\"\x7d\x7d]\x7d".toList

def cdPayload : List Char :=
  "\x7b\"choices\":[\x7b\"delta\":\x7b\"content\":\"cd\"\x7d\x7d]\x7d".toList

/-- A `json.loads` oracle for the two example payloads; everything else
fails to parse. -/
def exampleDecode : List Char → Option StreamFrame := fun l =>
  if l = abPayload then some ⟨some [⟨some ⟨some "ab"⟩⟩]⟩
  else if l = cdPayload then some ⟨some [⟨some ⟨some "cd"⟩⟩]⟩
  else none

/-- The synthetic frame sequence of the spec: `data:`-framed "ab" and "cd"
deltas followed by the terminator. -/
def exampleLines : List (List Char) :=
  [dataMark ++ abPayload, dataMark ++ cdPayload, dataMark ++ doneMark]

/-- A backend answering 429 on the first two attempts and a well-formed 200
afterwards. -/
def backendRL2 : Nat → AttemptResult := fun n =>
  if n < 2 then .response ⟨429, none, none⟩
  else .response ⟨200, some [⟨some ⟨some "payload"⟩⟩], none⟩

/-- A backend answering 429 on every attempt. -/
def backendRLAll : Nat → AttemptResult := fun _ => .response ⟨429, none, none⟩

/-- A backend answering 200 whose single choices entry has no 'message'
key. -/
def backend200NoMsg : Nat → AttemptResult := fun _ =>
  .response ⟨200, some [⟨none⟩], none⟩

/-- A backend answering 200 whose envelope has no 'choices' key. -/
def backend200NoChoices : Nat → AttemptResult := fun _ =>
  .response ⟨200, none, none⟩

/-- A JavaScript line consisting of a double-quoted string literal whose
closing quote is preceded by two backslashes (an escaped backslash), followed
by an opening brace: the characters `" \ \ " lbrace`. -/
def jsEscInput : List Char := "\"\\\\\"\x7b".toList

/-- `package main` followed by an empty `func main`. -/
def goGoodInput : List Char := "package main\nfunc main() \x7b\x7d".toList

/-- A seven-turn conversation history. -/
def witnessHist7 : List ChatMessage :=
  [⟨"user", "t0"⟩, ⟨"user", "t1"⟩, ⟨"assistant", "t2"⟩, ⟨"user", "t3"⟩,
    ⟨"assistant", "t4"⟩, ⟨"user", "t5"⟩, ⟨"assistant", "t6"⟩]

/-! ## Theorems -/

theorem splitOnChar_ne_nil (sep : Char) (l : List Char) :
    splitOnChar sep l ≠ [] := by
  induction l with
  | nil => simp [splitOnChar]
  | cons c rest ih =>
    unfold splitOnChar
    cases h : splitOnChar sep rest with
    | nil => simp
    | cons a as => by_cases hc : c = sep <;> simp [hc]

theorem splitOnChar_length (sep : Char) (l : List Char) :
    (splitOnChar sep l).length = l.count sep + 1 := by
  induction l with
  | nil => simp [splitOnChar]
  | cons c rest ih =>
    unfold splitOnChar
    cases h : splitOnChar sep rest with
    | nil => exact absurd h (splitOnChar_ne_nil sep rest)
    | cons a as =>
      rw [h] at ih
      simp only [List.length_cons] at ih
      by_cases hc : c = sep <;> simp [hc, List.count_cons] <;> omega

theorem splitLines_length (code : List Char) :
    (splitLines code).length = code.count '\n' + 1 :=
  splitOnChar_length '\n' code

theorem splitLines_length_pos (code : List Char) :
    0 < (splitLines code).length := by
  rw [splitLines_length]; omega

/-- Claim C9: the follow-up operation is a pure function of the history it
is handed (the embedding passes the history by value and the source only
evaluates `conversation_history[-6:]`, never assigning into it), and the
prompt message list it builds depends only on the last 6 turns: two
histories agreeing on that suffix produce identical requests. -/
theorem C9_follow_up_reads_suffix (question code : String)
    (h1 h2 : List ChatMessage) (h : lastN 6 h1 = lastN 6 h2) :
    process_follow_up question code h1 = process_follow_up question code h2 := by
  unfold process_follow_up historyText
  rw [h]

theorem C9_witness :
    lastN 6 witnessHist7 = lastN 6 (witnessHist7.drop 1) ∧
    process_follow_up "why" "x = 1" witnessHist7 =
      process_follow_up "why" "x = 1" (witnessHist7.drop 1) :=
  ⟨by decide, C9_follow_up_reads_suffix "why" "x = 1" witnessHist7
    (witnessHist7.drop 1) (by decide)⟩

/-- Claim C10 (amended): for every input containing at least one
non-whitespace character, checking with language "typescript" yields a
result whose language field is "javascript" (the shared routine hardcodes
the tag).  A whitespace-only input, being short-circuited before dispatch,
keeps the caller's identifier — see the counterexample. -/
theorem C10_typescript_tagged_javascript (pyParse : List Char → PyAstResult)
    (code : List Char) (hcode : trimChars code ≠ []) :
    (parse_code pyParse code "typescript").language = "javascript" := by
  unfold parse_code
  rw [if_neg hcode]
  have h : pyLower "typescript" = "typescript" := by decide
  rw [h, if_neg (by decide), if_pos (by decide :
    "typescript" = "javascript" ∨ "typescript" = "typescript")]
  simp [parse_javascript]

/-- The claim as frozen is false on whitespace-only input: `" "` is a
non-empty input, yet `parse_code` short-circuits before dispatch and returns
the caller's language identifier `"typescript"`, not `"javascript"`. -/
theorem C10_counterexample :
    (" ".toList ≠ ([] : List Char)) ∧
    (parse_code pyParseOk (" ".toList) "typescript").language ≠ "javascript" := by
  decide

theorem C10_witness :
    (parse_code pyParseOk ("x".toList) "typescript").language = "javascript" :=
  C10_typescript_tagged_javascript pyParseOk ("x".toList) (by decide)

/-- Claim C3 (amended): for input with at least one non-whitespace character
and a language identifier whose lowercase form is outside the fixed
supported set, the result has exactly one diagnostic, at line 1, with
message `Unsupported language: <lang>` but carrying no kind tag (the source
dictionary omits the 'type' key on this path), empty warnings, and
line_count equal to the literal newline count of the input plus 1. -/
theorem C3_unsupported_language (pyParse : List Char → PyAstResult)
    (code : List Char) (language : String)
    (hcode : trimChars code ≠ [])
    (hlang : pyLower language ∉ supportedLanguageNames) :
    parse_code pyParse code language =
      { syntax_errors := [⟨1, none,
          "Unsupported language: " ++ pyLower language, none⟩],
        warnings := [], ast := none, language := pyLower language,
        line_count := code.count '\n' + 1 } := by
  simp only [supportedLanguageNames, List.mem_cons, List.not_mem_nil,
    or_false, not_or] at hlang
  obtain ⟨hpy, hjs, hts, hcpp, hjava, hgo, hrust⟩ := hlang
  unfold parse_code
  rw [if_neg hcode, if_neg hpy, if_neg (not_or.2 ⟨hjs, hts⟩), if_neg hcpp,
    if_neg hjava, if_neg hgo, if_neg hrust, splitLines_length]

/-- The claim as frozen asserts the synthetic diagnostic has kind
`UnsupportedLanguage`; on the concrete input `check("x", "ruby")` the single
diagnostic carries no kind tag at all (the source omits the 'type' key). -/
theorem C3_counterexample :
    (parse_code pyParseOk ("x".toList) "ruby").syntax_errors =
      [⟨1, none, "Unsupported language: ruby", none⟩] ∧
    (⟨1, none, "Unsupported language: ruby", none⟩ : Diagnostic).type ≠
      some "UnsupportedLanguage" := by
  decide

theorem C3_witness :
    parse_code pyParseOk ("x".toList) "ruby" =
      { syntax_errors := [⟨1, none,
          "Unsupported language: " ++ pyLower "ruby", none⟩],
        warnings := [], ast := none, language := pyLower "ruby",
        line_count := ("x".toList).count '\n' + 1 } :=
  C3_unsupported_language pyParseOk ("x".toList) "ruby" (by decide) (by decide)

/-- Claim C7 (amended): for every go input with at least one non-whitespace
character and no line whose stripped form starts with `package `, the result
has exactly one syntax error, of kind MissingPackage (an error, not a
warning — the go routine emits nothing else and its warnings are empty);
the input `package main\nfunc main() \x7b\x7d` yields zero errors.  A
whitespace-only input is short-circuited before the go routine runs — see
the counterexample. -/
theorem C7_go_missing_package (pyParse : List Char → PyAstResult) :
    (∀ code : List Char, trimChars code ≠ [] →
      (∀ l ∈ splitLines code,
        ("package ".toList).isPrefixOf (trimChars l) = false) →
      (parse_code pyParse code "go").syntax_errors =
          [⟨1, none, "Missing package declaration", some "MissingPackage"⟩] ∧
        (parse_code pyParse code "go").warnings = []) ∧
    (parse_code pyParse goGoodInput "go").syntax_errors = [] := by
  constructor
  · intro code hcode hnopkg
    unfold parse_code
    rw [if_neg hcode]
    have h : pyLower "go" = "go" := by decide
    rw [h, if_neg (by decide), if_neg (by decide :
        ¬("go" = "javascript" ∨ "go" = "typescript")), if_neg (by decide),
      if_neg (by decide), if_pos (rfl : "go" = "go")]
    have hany : ((splitLines code).any fun l =>
        ("package ".toList).isPrefixOf (trimChars l)) = false := by
      rw [List.any_eq_false]
      intro l hl hpre
      have h2 := hpre
      rw [hnopkg l hl] at h2
      cases h2
    constructor
    · simp only [parse_go]
      rw [hany]
      rfl
    · simp only [parse_go]
  · unfold parse_code
    rw [if_neg (by decide : ¬(trimChars goGoodInput = []))]
    have h : pyLower "go" = "go" := by decide
    rw [h, if_neg (by decide), if_neg (by decide :
        ¬("go" = "javascript" ∨ "go" = "typescript")), if_neg (by decide),
      if_neg (by decide), if_pos (rfl : "go" = "go")]
    decide

/-- The claim as frozen quantifies over every non-empty go input; the
whitespace-only input `" "` is non-empty and has no package line, yet the
checker short-circuits and reports no MissingPackage diagnostic. -/
theorem C7_counterexample :
    (" ".toList ≠ ([] : List Char)) ∧
    (∀ l ∈ splitLines (" ".toList),
      ("package ".toList).isPrefixOf (trimChars l) = false) ∧
    (parse_code pyParseOk (" ".toList) "go").syntax_errors = [] := by
  decide

theorem C7_witness :
    (parse_code pyParseOk ("func main()".toList) "go").syntax_errors =
      [⟨1, none, "Missing package declaration", some "MissingPackage"⟩] :=
  ((C7_go_missing_package pyParseOk).1 ("func main()".toList) (by decide)
    (by decide)).1

/-- Claim C4 (amended): while the scanner is inside a string literal all
three bracket counters are left unchanged by every character, and the
string-literal state ends exactly when the current character equals the
opening quote character and the immediately preceding character of the line
is not a backslash (line start included).  The escape test inspects only
the single preceding character: a quote preceded by two backslashes (an
escaped backslash, which terminates the string in real JavaScript) does NOT
end the string state — see the counterexample. -/
theorem C4_string_escape (s : JsScanState) (prev : Option Char) (c q : Char)
    (hin : s.inString = true) (hq : s.stringChar = some q) :
    ((jsCharStep s prev c).brace = s.brace ∧
      (jsCharStep s prev c).paren = s.paren ∧
      (jsCharStep s prev c).bracket = s.bracket) ∧
    ((jsCharStep s prev c).inString = false ↔
      (c = q ∧ prev ≠ some '\\')) := by
  have hcond : (s.stringChar = some c ∧ (prev = none ∨ prev ≠ some '\\')) ↔
      (c = q ∧ prev ≠ some '\\') := by
    rw [hq]
    constructor
    · rintro ⟨h1, h2⟩
      have hqc : q = c := by injection h1
      subst hqc
      refine ⟨rfl, ?_⟩
      rcases h2 with h2 | h2
      · subst h2
        intro hcon
        cases hcon
      · exact h2
    · rintro ⟨rfl, h2⟩
      exact ⟨rfl, Or.inr h2⟩
  unfold jsCharStep
  rw [hin]
  rw [if_neg (by simp : ¬(true = false))]
  by_cases hc : c = q ∧ prev ≠ some '\\'
  · rw [if_pos (hcond.mpr hc)]
    exact ⟨⟨rfl, rfl, rfl⟩, by simp [hc]⟩
  · rw [if_neg (fun hh => hc (hcond.mp hh))]
    constructor
    · exact ⟨rfl, rfl, rfl⟩
    · rw [hin]
      simp [hc]

/-- The claim as frozen says a quote preceded by an escaped backslash (two
backslashes) ends the string-literal state; on the concrete line
`" \ \ " lbrace` the code is still inside the string after the second
quote, and consequently the trailing opening brace is not counted and no
UnmatchedBraces diagnostic is produced. -/
theorem C4_counterexample :
    (jsScanLine initJsState jsEscInput).inString = true ∧
    (parse_javascript jsEscInput).syntax_errors = [] := by
  decide

theorem C4_witness :
    (jsCharStep ⟨0, 0, 0, true, some '"'⟩ (some 'a') '"').inString = false :=
  ((C4_string_escape ⟨0, 0, 0, true, some '"'⟩ (some 'a') '"' '"'
    rfl rfl).2).mpr ⟨rfl, by decide⟩

/-- Claim C5: when the javascript/typescript scan ends with all three
counters balanced, the result carries no unmatched-bracket diagnostics (its
error list is empty — the routine produces no other errors); when it ends
with exactly one excess opening brace, the UnmatchedBraces diagnostics are
exactly one, reported at the final line, with message
`Unmatched braces: 1 extra opening` (positive count, excess opens). -/
theorem C5_unmatched_brackets (code : List Char) :
    ((jsScanAll initJsState (splitLines code)).brace = 0 →
      (jsScanAll initJsState (splitLines code)).paren = 0 →
      (jsScanAll initJsState (splitLines code)).bracket = 0 →
      (parse_javascript code).syntax_errors = []) ∧
    ((jsScanAll initJsState (splitLines code)).brace = 1 →
      (parse_javascript code).syntax_errors.filter
          (fun d => d.type == some "UnmatchedBraces") =
        [⟨(splitLines code).length, none,
          "Unmatched braces: 1 extra opening", some "UnmatchedBraces"⟩]) := by
  constructor
  · intro hb hp hk
    simp only [parse_javascript]
    rw [hb, hp, hk]
    rw [if_neg (by decide : ¬((0 : Int) ≠ 0)),
      if_neg (by decide : ¬((0 : Int) ≠ 0)),
      if_neg (by decide : ¬((0 : Int) ≠ 0))]
    rfl
  · intro hb
    simp only [parse_javascript]
    rw [hb]
    rw [if_pos (by decide : (1 : Int) ≠ 0)]
    have hmsg : ("Unmatched braces: " ++ toString (1 : Int) ++ " extra " ++
        (if (1 : Int) > 0 then "opening" else "closing")) =
        "Unmatched braces: 1 extra opening" := by decide
    have hT : ((some "UnmatchedBraces" : Option String) ==
        some "UnmatchedBraces") = true := by decide
    have hP : ((some "UnmatchedParentheses" : Option String) ==
        some "UnmatchedBraces") = false := by decide
    have hK : ((some "UnmatchedBrackets" : Option String) ==
        some "UnmatchedBraces") = false := by decide
    split <;> split <;>
      simp [List.filter_append, List.filter_cons, hT, hP, hK] <;>
      first
        | decide
        | omega

theorem C5_witness :
    (parse_javascript ("\x7b\x7d".toList)).syntax_errors = [] ∧
    (parse_javascript ("\x7b".toList)).syntax_errors.filter
        (fun d => d.type == some "UnmatchedBraces") =
      [⟨(splitLines ("\x7b".toList)).length, none,
        "Unmatched braces: 1 extra opening", some "UnmatchedBraces"⟩] :=
  ⟨(C5_unmatched_brackets ("\x7b\x7d".toList)).1 (by decide) (by decide)
      (by decide),
    (C5_unmatched_brackets ("\x7b".toList)).2 (by decide)⟩

/-- Membership in a conditional singleton list forces equality with the
single element. -/
theorem mem_if_singleton {P : Prop} [Decidable P] {d x : Diagnostic}
    (hd : d ∈ (if P then [x] else [])) : d = x := by
  split at hd
  · exact List.mem_singleton.1 hd
  · cases hd

theorem perLine_line_pos {f : Nat → List Char → List Diagnostic}
    (hf : ∀ i l d, d ∈ f i l → d.line = i)
    (lines : List (List Char)) (d : Diagnostic)
    (hd : d ∈ perLine f lines) : 1 ≤ d.line := by
  unfold perLine at hd
  rcases List.mem_flatten.1 hd with ⟨w, hw, hdw⟩
  rcases List.mem_map.1 hw with ⟨p, _, rfl⟩
  have := hf (p.1 + 1) p.2 d hdw
  omega

theorem jsLineWarning_line (i : Nat) (line : List Char) :
    ∀ d ∈ jsLineWarning i line, d.line = i := by
  intro d hd
  unfold jsLineWarning at hd
  have he := mem_if_singleton hd
  subst he
  rfl

theorem cppLineWarning_line (i : Nat) (line : List Char) :
    ∀ d ∈ cppLineWarning i line, d.line = i := by
  intro d hd
  unfold cppLineWarning at hd
  have he := mem_if_singleton hd
  subst he
  rfl

theorem javaLineWarning_line (i : Nat) (line : List Char) :
    ∀ d ∈ javaLineWarning i line, d.line = i := by
  intro d hd
  unfold javaLineWarning at hd
  have he := mem_if_singleton hd
  subst he
  rfl

theorem pyLineWarnings_line (code : List Char) (i : Nat) (line : List Char) :
    ∀ d ∈ pyLineWarnings code i line, d.line = i := by
  intro d hd
  unfold pyLineWarnings at hd
  simp only [List.mem_append] at hd
  rcases hd with (hd | hd) | hd
  · split at hd
    · split at hd
      · have he := mem_if_singleton hd
        subst he
        rfl
      · cases hd
    · cases hd
  · have he := mem_if_singleton hd
    subst he
    rfl
  · split at hd
    · rcases List.mem_map.1 hd with ⟨v, _, rfl⟩
      rfl
    · cases hd

theorem parse_javascript_linesPositive (code : List Char) :
    linesPositive (parse_javascript code) := by
  intro d hd
  have hlen := splitLines_length_pos code
  simp only [parse_javascript] at hd
  rcases hd with hd | hd
  · simp only [List.mem_append] at hd
    rcases hd with (hd | hd) | hd <;>
      (have he := mem_if_singleton hd; subst he; exact hlen)
  · exact perLine_line_pos jsLineWarning_line _ d hd

theorem pyOrOne_pos (o : Option Nat) : 1 ≤ pyOrOne o := by
  rcases o with _ | n
  · exact le_refl 1
  · cases n
    · exact le_refl 1
    · exact Nat.succ_le_succ (Nat.zero_le _)

theorem parse_python_linesPositive (pyParse : List Char → PyAstResult)
    (code : List Char) : linesPositive (parse_python pyParse code) := by
  intro d hd
  unfold parse_python at hd
  cases hp : pyParse code with
  | ok =>
    rw [hp] at hd
    rcases hd with hd | hd
    · cases hd
    · exact perLine_line_pos (pyLineWarnings_line code) _ d hd
  | syntaxError lineno offset msg =>
    rw [hp] at hd
    rcases hd with hd | hd
    · have he := List.mem_singleton.1 hd
      subst he
      exact pyOrOne_pos lineno
    · cases hd
  | otherError msg =>
    rw [hp] at hd
    rcases hd with hd | hd
    · have he := List.mem_singleton.1 hd
      subst he
      exact le_refl 1
    · cases hd

theorem parse_cpp_linesPositive (code : List Char) :
    linesPositive (parse_cpp code) := by
  intro d hd
  simp only [parse_cpp] at hd
  rcases hd with hd | hd
  · cases hd
  · simp only [List.mem_append] at hd
    rcases hd with hd | hd
    · exact perLine_line_pos cppLineWarning_line _ d hd
    · have he := mem_if_singleton hd
      subst he
      exact le_refl 1

theorem parse_java_linesPositive (code : List Char) :
    linesPositive (parse_java code) := by
  intro d hd
  simp only [parse_java] at hd
  rcases hd with hd | hd
  · cases hd
  · simp only [List.mem_append] at hd
    rcases hd with hd | hd
    · exact perLine_line_pos javaLineWarning_line _ d hd
    · have he := mem_if_singleton hd
      subst he
      exact le_refl 1

theorem parse_go_linesPositive (code : List Char) :
    linesPositive (parse_go code) := by
  intro d hd
  simp only [parse_go] at hd
  rcases hd with hd | hd
  · have he := mem_if_singleton hd
    subst he
    exact le_refl 1
  · cases hd

theorem parse_rust_linesPositive (code : List Char) :
    linesPositive (parse_rust code) := by
  intro d hd
  rcases hd with hd | hd <;> cases hd

/-- Claim C8: for every input, language identifier and behaviour of the
external ast parser, every diagnostic in the result's syntax_errors and
warnings has a positive (1-based) line number — never 0, never negative
(the sources of line numbers are the constant 1, `enumerate(lines, 1)`
indices, the final line count of a never-empty split, and CPython's
SyntaxError lineno guarded by `or 1`); no unknown sentinel is produced. -/
theorem C8_diagnostic_lines_positive (pyParse : List Char → PyAstResult)
    (code : List Char) (language : String) :
    linesPositive (parse_code pyParse code language) := by
  unfold parse_code
  split
  · intro d hd
    rcases hd with hd | hd <;> cases hd
  · dsimp only
    split
    · exact parse_python_linesPositive pyParse code
    · split
      · exact parse_javascript_linesPositive code
      · split
        · exact parse_cpp_linesPositive code
        · split
          · exact parse_java_linesPositive code
          · split
            · exact parse_go_linesPositive code
            · split
              · exact parse_rust_linesPositive code
              · intro d hd
                rcases hd with hd | hd
                · have he := List.mem_singleton.1 hd
                  subst he
                  exact le_refl 1
                · cases hd

theorem C8_witness :
    1 ≤ (Diagnostic.mk 1 none "Unsupported language: ruby" none).line :=
  C8_diagnostic_lines_positive pyParseOk ("x".toList) "ruby"
    ⟨1, none, "Unsupported language: ruby", none⟩ (Or.inl (by decide))

/-- One 429 round that is not the last attempt: a backoff sleep of
`2 ^ attempt` and a recursive retry. -/
theorem apiGo_429_step (backend : Nat → AttemptResult)
    (attempt remaining : Nat) (r : HttpResponse)
    (hb : backend attempt = .response r) (hs : r.status = 429)
    (hr : 0 < remaining) :
    apiGo backend attempt (remaining + 1) =
      ⟨(apiGo backend (attempt + 1) remaining).result,
        2 ^ attempt :: (apiGo backend (attempt + 1) remaining).sleeps,
        (apiGo backend (attempt + 1) remaining).requests + 1⟩ := by
  rw [apiGo, hb]
  dsimp only
  rw [hs]
  rw [if_neg (by decide : ¬((429 : Nat) = 200)),
    if_pos (rfl : (429 : Nat) = 429), if_pos hr]

/-- A 429 on the last attempt raises the rate-limit failure. -/
theorem apiGo_429_last (backend : Nat → AttemptResult) (attempt : Nat)
    (r : HttpResponse) (hb : backend attempt = .response r)
    (hs : r.status = 429) :
    apiGo backend attempt 1 = ⟨.error .rateLimited, [], 1⟩ := by
  rw [apiGo, hb]
  dsimp only
  rw [hs]
  rw [if_neg (by decide : ¬((429 : Nat) = 200)),
    if_pos (rfl : (429 : Nat) = 429), if_neg (by decide : ¬((0 : Nat) > 0))]

/-- A 200 response ends the loop immediately, with the outcome decided by
the envelope alone. -/
theorem apiGo_200 (backend : Nat → AttemptResult) (attempt remaining : Nat)
    (r : HttpResponse) (hb : backend attempt = .response r)
    (hs : r.status = 200) :
    apiGo backend attempt (remaining + 1) =
      (match r.choices with
       | some (c :: _) =>
         (match c.message with
          | some m =>
            (match m.content with
             | some s => (⟨.ok s, [], 1⟩ : ApiCallTrace)
             | none => ⟨.error .keyError, [], 1⟩)
          | none => ⟨.error .keyError, [], 1⟩)
       | _ => ⟨.error .invalidFormat, [], 1⟩) := by
  rw [apiGo, hb]
  dsimp only
  rw [hs, if_pos (rfl : (200 : Nat) = 200)]

/-- Claim C1: with the default retry budget of 3, a backend answering 429 on
the first two attempts and a well-formed 200 envelope on the third makes the
buffered request return the extracted payload, after exactly the two
backoff sleeps 2^0 = 1 and 2^1 = 2 time units and three requests; a backend
answering 429 on every attempt makes it fail with the rate-limit error
(the trace carries a single raised outcome, so the exception is raised
exactly once) after the same two backoff sleeps and three requests. -/
theorem C1_retry_policy :
    (∀ (backend : Nat → AttemptResult) (r0 r1 r2 : HttpResponse)
        (c : RespChoice) (cs : List RespChoice) (m : RespMessage)
        (s : String),
      backend 0 = .response r0 → r0.status = 429 →
      backend 1 = .response r1 → r1.status = 429 →
      backend 2 = .response r2 → r2.status = 200 →
      r2.choices = some (c :: cs) → c.message = some m →
      m.content = some s →
      make_api_request backend 3 true = ⟨.ok s, [1, 2], 3⟩) ∧
    (∀ backend : Nat → AttemptResult,
      (∀ i, i < 3 → ∃ r, backend i = .response r ∧ r.status = 429) →
      make_api_request backend 3 true = ⟨.error .rateLimited, [1, 2], 3⟩) := by
  constructor
  · intro backend r0 r1 r2 c cs m s h0 hs0 h1 hs1 h2 hs2 hch hm hc
    show apiGo backend 0 3 = _
    rw [show (3 : Nat) = 2 + 1 from rfl,
      apiGo_429_step backend 0 2 r0 h0 hs0 (by omega),
      show (2 : Nat) = 1 + 1 from rfl,
      apiGo_429_step backend 1 1 r1 h1 hs1 (by omega),
      show (1 : Nat) = 0 + 1 from rfl,
      apiGo_200 backend 2 0 r2 h2 hs2]
    simp [hch, hm, hc]
  · intro backend h
    obtain ⟨r0, h0, hs0⟩ := h 0 (by omega)
    obtain ⟨r1, h1, hs1⟩ := h 1 (by omega)
    obtain ⟨r2, h2, hs2⟩ := h 2 (by omega)
    show apiGo backend 0 3 = _
    rw [show (3 : Nat) = 2 + 1 from rfl,
      apiGo_429_step backend 0 2 r0 h0 hs0 (by omega),
      show (2 : Nat) = 1 + 1 from rfl,
      apiGo_429_step backend 1 1 r1 h1 hs1 (by omega),
      apiGo_429_last backend 2 r2 h2 hs2]
    rfl

theorem C1_witness :
    make_api_request backendRL2 3 true = ⟨.ok "payload", [1, 2], 3⟩ ∧
    make_api_request backendRLAll 3 true =
      ⟨.error .rateLimited, [1, 2], 3⟩ :=
  ⟨C1_retry_policy.1 backendRL2 ⟨429, none, none⟩ ⟨429, none, none⟩
      ⟨200, some [⟨some ⟨some "payload"⟩⟩], none⟩ ⟨some ⟨some "payload"⟩⟩
      [] ⟨some "payload"⟩ "payload" rfl rfl rfl rfl rfl rfl rfl rfl rfl,
    C1_retry_policy.2 backendRLAll
      (fun _ _ => ⟨⟨429, none, none⟩, rfl, rfl⟩)⟩

/-- Claim C6 (amended): on an HTTP 200 whose envelope misses the 'choices'
entry (or carries an empty one), the buffered request fails with the
response-format error and performs no retry: one request, no backoff
delay.  On a 200 whose first choices entry misses the 'message' key or
whose message misses 'content', it likewise performs no retry and no
backoff, but the failure is an untyped KeyError from the unguarded
subscripting, not the response-format error — see the counterexample. -/
theorem C6_malformed_envelope (backend : Nat → AttemptResult)
    (r : HttpResponse) (n : Nat)
    (hb : backend 0 = .response r) (hs : r.status = 200) :
    ((r.choices = none ∨ r.choices = some []) →
      make_api_request backend (n + 1) true =
        ⟨.error .invalidFormat, [], 1⟩) ∧
    (∀ c cs, r.choices = some (c :: cs) →
      (c.message = none ∨ ∃ m, c.message = some m ∧ m.content = none) →
      make_api_request backend (n + 1) true = ⟨.error .keyError, [], 1⟩) := by
  constructor
  · intro hch
    show apiGo backend 0 (n + 1) = _
    rw [apiGo_200 backend 0 n r hb hs]
    rcases hch with hch | hch <;> rw [hch]
  · intro c cs hch hm
    show apiGo backend 0 (n + 1) = _
    rw [apiGo_200 backend 0 n r hb hs]
    rcases hm with hm | ⟨m, hm, hc⟩
    · simp [hch, hm]
    · simp [hch, hm, hc]

/-- The claim as frozen says a choices entry missing the message content
fails with the ResponseFormatError; on a backend whose 200 envelope has a
choices entry without a 'message' key the operation instead dies with the
untyped KeyError (still without retrying), which is a different failure
from ValueError('Invalid response format from API'). -/
theorem C6_counterexample :
    make_api_request backend200NoMsg 3 true = ⟨.error .keyError, [], 1⟩ ∧
    (ApiOutcome.error .keyError ≠ ApiOutcome.error .invalidFormat) := by
  decide

theorem C6_witness :
    make_api_request backend200NoChoices 3 true =
      ⟨.error .invalidFormat, [], 1⟩ :=
  (C6_malformed_envelope backend200NoChoices ⟨200, none, none⟩ 2 rfl
    rfl).1 (Or.inl rfl)

theorem streamFragments_cons (decode : List Char → Option StreamFrame)
    (line : List Char) (rest : List (List Char)) :
    streamFragments decode (line :: rest) =
      (match lineAction decode line with
       | .stop => []
       | .yieldFrag s => s :: streamFragments decode rest
       | .skip => streamFragments decode rest) := rfl

theorem isPrefixOf_append_self (l p : List Char) :
    l.isPrefixOf (l ++ p) = true := by
  induction l with
  | nil => simp [List.isPrefixOf]
  | cons c rest ih => simp [List.isPrefixOf, ih]

theorem dataLine_ne_nil (p : List Char) : dataMark ++ p ≠ [] := fun h =>
  (by decide : dataMark ≠ []) (List.append_eq_nil.1 h).1

theorem dataMark_drop (p : List Char) : (dataMark ++ p).drop 6 = p := by
  rw [show (6 : Nat) = dataMark.length from rfl, List.drop_left]

/-- The terminator line maps to the stop action. -/
theorem lineAction_done (decode : List Char → Option StreamFrame) :
    lineAction decode (dataMark ++ doneMark) = LineAction.stop := by
  unfold lineAction
  rw [if_neg (dataLine_ne_nil _), if_pos (isPrefixOf_append_self _ _),
    dataMark_drop]
  dsimp only
  rw [if_pos rfl]

/-- A non-terminator data line maps through the decode oracle and the
delta accessor. -/
theorem lineAction_data_notDone (decode : List Char → Option StreamFrame)
    (p : List Char) (hne : p ≠ doneMark) :
    lineAction decode (dataMark ++ p) =
      (match decode p with
       | none => LineAction.skip
       | some f =>
         (match frameDelta f with
          | some s => LineAction.yieldFrag s
          | none => LineAction.skip)) := by
  unfold lineAction
  rw [if_neg (dataLine_ne_nil _), if_pos (isPrefixOf_append_self _ _),
    dataMark_drop]
  dsimp only
  rw [if_neg hne]
  cases hdec : decode p with
  | none => rfl
  | some f =>
    obtain ⟨choices⟩ := f
    match choices with
    | none => rfl
    | some [] => rfl
    | some (⟨none⟩ :: cs) => rfl
    | some (⟨some ⟨none⟩⟩ :: cs) => rfl
    | some (⟨some ⟨some s⟩⟩ :: cs) => rfl

/-- Claim C2: the streaming consumer yields exactly the content deltas of
the parseable frames, in arrival order: the terminator line ends the
sequence immediately without yielding a fragment; a data line whose payload
fails to parse is skipped, leaving the fragment sequence exactly as if the
line were absent (no gap marker, no failure); a data line that parses to a
frame carrying a content delta contributes exactly that delta at its
position; and on the synthetic body `data: ..ab.. / data: ..cd.. /
data: [DONE]` the yielded fragments are ["ab", "cd"] — a finite sequence
concatenating to exactly "abcd". -/
theorem C2_streaming :
    (∀ (decode : List Char → Option StreamFrame) (post : List (List Char)),
      streamFragments decode ((dataMark ++ doneMark) :: post) = []) ∧
    (∀ (decode : List Char → Option StreamFrame)
        (pre post : List (List Char)) (bad : List Char),
      decode bad = none → bad ≠ doneMark →
      streamFragments decode (pre ++ (dataMark ++ bad) :: post) =
        streamFragments decode (pre ++ post)) ∧
    (∀ (decode : List Char → Option StreamFrame) (post : List (List Char))
        (p : List Char) (f : StreamFrame) (s : String),
      p ≠ doneMark → decode p = some f → frameDelta f = some s →
      streamFragments decode ((dataMark ++ p) :: post) =
        s :: streamFragments decode post) ∧
    (streamFragments exampleDecode exampleLines = ["ab", "cd"] ∧
      String.join (streamFragments exampleDecode exampleLines) = "abcd") := by
  refine ⟨?_, ?_, ?_, by decide, by decide⟩
  · intro decode post
    rw [streamFragments_cons, lineAction_done]
  · intro decode pre post bad hdec hne
    induction pre with
    | nil =>
      simp only [List.nil_append]
      rw [streamFragments_cons, lineAction_data_notDone decode bad hne, hdec]
    | cons l pre ih =>
      simp only [List.cons_append]
      rw [streamFragments_cons, streamFragments_cons]
      cases h : lineAction decode l <;> simp [ih]
  · intro decode post p f s hne hdec hfd
    rw [streamFragments_cons, lineAction_data_notDone decode p hne, hdec]
    dsimp only
    rw [hfd]

theorem C2_witness :
    exampleDecode ("oops".toList) = none ∧
    streamFragments exampleDecode
        (exampleLines.take 1 ++
          (dataMark ++ "oops".toList) :: exampleLines.drop 1) =
      streamFragments exampleDecode
        (exampleLines.take 1 ++ exampleLines.drop 1) :=
  ⟨by decide, C2_streaming.2.1 exampleDecode (exampleLines.take 1)
    (exampleLines.drop 1) ("oops".toList) (by decide) (by decide)⟩

end DebugTutor
